import Mathlib

/-!
Shallow embedding of the cart store and the shop filter/sort of the
elloria storefront (src/src/components/Header.tsx, src/src/pages/Shop.tsx).

JavaScript numbers are modelled by `JSNum`: an exact rational together
with the special values `NaN`, `+Infinity` and `-Infinity`.  The decimal
literals appearing in the repository (6.99, 7.99, 8.99, promo discounts)
and the arithmetic performed on them (sums of price × integer quantity,
percentage discounts) are exact in this model; the special-value
propagation rules (`NaN` absorbing, `Infinity + -Infinity = NaN`, sign
rules for products with infinities) follow the IEEE rules JavaScript
uses.  Quantities are modelled as integers (`Int`), which is the domain
the specification assigns to them.
-/

inductive JSNum where
  | nan : JSNum
  | posInf : JSNum
  | negInf : JSNum
  | fin : ℚ → JSNum
deriving DecidableEq

namespace JSNum

/-- `isNaN(x)` for a number `x`. -/
def isNaN : JSNum → Bool
  | nan => true
  | _ => false

/-- JavaScript `ToBoolean` on a number is `false` exactly for `0`, `-0`
and `NaN`; `!x` is its negation.  Rationals have a single zero. -/
def falsy : JSNum → Bool
  | nan => true
  | fin q => q == 0
  | _ => false

/-- IEEE addition on the model: `NaN` absorbs, opposite infinities give
`NaN`, an infinity absorbs finite values, finite addition is exact. -/
def add : JSNum → JSNum → JSNum
  | nan, _ => nan
  | _, nan => nan
  | posInf, negInf => nan
  | negInf, posInf => nan
  | posInf, _ => posInf
  | _, posInf => posInf
  | negInf, _ => negInf
  | _, negInf => negInf
  | fin a, fin b => fin (a + b)

/-- IEEE multiplication on the model: `NaN` absorbs, `0 × ±Infinity` is
`NaN`, otherwise infinities follow the sign rule, finite products are
exact. -/
def mul : JSNum → JSNum → JSNum
  | nan, _ => nan
  | _, nan => nan
  | posInf, posInf => posInf
  | posInf, negInf => negInf
  | negInf, posInf => negInf
  | negInf, negInf => posInf
  | posInf, fin q => if q = 0 then nan else if 0 < q then posInf else negInf
  | fin q, posInf => if q = 0 then nan else if 0 < q then posInf else negInf
  | negInf, fin q => if q = 0 then nan else if 0 < q then negInf else posInf
  | fin q, negInf => if q = 0 then nan else if 0 < q then negInf else posInf
  | fin a, fin b => fin (a * b)

end JSNum

/-! ### Cart data model (Header.tsx) -/

/-- `export type CartItem` from Header.tsx. -/
structure CartItem where
  id : String
  name : String
  description : String
  image : String
  quantity : Int
  price : JSNum
deriving DecidableEq

/-- `export type PromoCode` from Header.tsx. -/
structure PromoCode where
  code : String
  discount : ℚ
deriving DecidableEq

/-- `const VALID_PROMO_CODES: PromoCode[]`. -/
def VALID_PROMO_CODES : List PromoCode :=
  [⟨"WELCOME10", 10⟩, ⟨"SAVE20", 20⟩]

/-- The persisted envelope `{ items, expiryDate }` written under
`CART_STORAGE_KEY`; `expiryDate` is an epoch-millisecond timestamp. -/
structure CartEnvelope where
  items : List CartItem
  expiryDate : Int
deriving DecidableEq

/-- `const CART_EXPIRY_DAYS = 7`. -/
def CART_EXPIRY_DAYS : Int := 7

/-- The expiry window in milliseconds.  The source computes the expiry
timestamp with `expiryDate.setDate(expiryDate.getDate() + CART_EXPIRY_DAYS)`,
which advances the clock by seven calendar days, i.e. 7 × 86400000 ms. -/
def cartExpiryMs : Int := CART_EXPIRY_DAYS * 86400000

/-- The React state owned by `CartProvider`: the item list and the
active promo code (the transient `isCartAnimating` flag is
presentation-only and carries no cart semantics). -/
structure CartState where
  items : List CartItem
  activePromoCode : Option PromoCode
deriving DecidableEq

/-- The provider state together with the `localStorage` entry under
`CART_STORAGE_KEY`.  `storage = none` means the key is absent (or, at
load time, that the stored string failed to parse). -/
structure SysState where
  cart : CartState
  storage : Option CartEnvelope
deriving DecidableEq

/-- The `useEffect` on `[items]`: after every call to `setItems` the
effect re-runs (each setter call produces a fresh array reference) and
rewrites the envelope with a freshly computed expiry timestamp.
`now` is `new Date().getTime()` at the moment the effect runs. -/
def persist (now : Int) (s : SysState) : SysState :=
  { s with storage := some ⟨s.cart.items, now + cartExpiryMs⟩ }

/-- The `useState` initializer of `CartProvider`: the envelope is used
only when the current time is strictly before `expiryDate`; an absent
or unparseable entry (`none`) and an expired envelope both yield `[]`.
The function is total: no error escapes the load path. -/
def loadCart (saved : Option CartEnvelope) (now : Int) : List CartItem :=
  match saved with
  | none => []
  | some env => if now < env.expiryDate then env.items else []

/-- The state of a freshly mounted provider: items restored by
`loadCart`, no promo code, and the effect's first run persisting
whatever was restored. -/
def initState (saved : Option CartEnvelope) (now : Int) : SysState :=
  persist now { cart := ⟨loadCart saved now, none⟩, storage := saved }

/-- The price guard of `addItem`:
`if (!newItem.price || isNaN(newItem.price)) return;`. -/
def priceInvalid (p : JSNum) : Bool := p.falsy || p.isNaN

/-- `addItem`.  On an invalid price the handler returns before calling
`setItems`, so nothing changes and no persistence write happens.
Otherwise: an existing line item with the same id has its quantity
increased by the requested amount and capped with `Math.min(99, ·)`;
a new item is appended with its quantity capped with `Math.min(99, ·)`
(there is no lower clamp in the source).  The `setItems` call makes the
persistence effect re-run. -/
def addItem (now : Int) (newItem : CartItem) (s : SysState) : SysState :=
  if priceInvalid newItem.price then s
  else
    let currentItems := s.cart.items
    let items' :=
      match currentItems.find? (fun item => item.id == newItem.id) with
      | some _ =>
        currentItems.map (fun item =>
          if item.id == newItem.id then
            { item with quantity := min 99 (item.quantity + newItem.quantity) }
          else item)
      | none =>
        currentItems ++ [{ newItem with quantity := min 99 newItem.quantity }]
    persist now { s with cart := { s.cart with items := items' } }

/-- `updateQuantity`: `if (quantity < 1 || quantity > 99) return;` else
`setItems(map ...)` (which re-runs the persistence effect even when no
item matches the id, since `map` returns a fresh array). -/
def updateQuantity (now : Int) (id : String) (quantity : Int) (s : SysState) : SysState :=
  if quantity < 1 ∨ quantity > 99 then s
  else
    persist now
      { s with cart :=
        { s.cart with items :=
          s.cart.items.map (fun item =>
            if item.id == id then { item with quantity := quantity } else item) } }

/-- `removeItem`: filters the id out and lets the effect persist. -/
def removeItem (now : Int) (id : String) (s : SysState) : SysState :=
  persist now
    { s with cart :=
      { s.cart with items := s.cart.items.filter (fun item => item.id != id) } }

/-- `clearCart`: the handler synchronously empties the items, clears the
promo code and calls `localStorage.removeItem(CART_STORAGE_KEY)`; then,
because `items` changed, the persistence effect re-runs after the
re-render and writes a fresh (empty) envelope back under the key. -/
def clearCart (now : Int) (_s : SysState) : SysState :=
  persist now { cart := ⟨[], none⟩, storage := none }

/-- JavaScript `toLowerCase`, modelled character-wise on the string's
characters.  The repository's promo codes, filter tags and catalog
strings are ASCII, on which `Char.toLower` agrees with JavaScript. -/
def jsToLower (s : String) : List Char := s.toList.map Char.toLower

/-- The case-insensitive allow-list lookup inside `applyPromoCode`:
`VALID_PROMO_CODES.find(promo => promo.code.toLowerCase() === code.toLowerCase())`. -/
def lookupPromo (code : String) : Option PromoCode :=
  VALID_PROMO_CODES.find? (fun promo => jsToLower promo.code == jsToLower code)

/-- `applyPromoCode`: on a match the found entry becomes the single
active promo code; on no match only a toast is shown and the state is
untouched.  No `setItems` call, hence no persistence write. -/
def applyPromoCode (code : String) (s : SysState) : SysState :=
  match lookupPromo code with
  | some promoCode => { s with cart := { s.cart with activePromoCode := some promoCode } }
  | none => s

/-- `removePromoCode`. -/
def removePromoCode (s : SysState) : SysState :=
  { s with cart := { s.cart with activePromoCode := none } }

/-- The per-item `const itemTotal = item.price * item.quantity` inside
the `subtotal` fold. -/
def itemTotal (item : CartItem) : JSNum :=
  item.price.mul (JSNum.fin item.quantity)

/-- `subtotal`: the render-time fold
`items.reduce((sum, item) => { const itemTotal = item.price * item.quantity;
return isNaN(itemTotal) ? sum : sum + itemTotal; }, 0)`. -/
def subtotal (items : List CartItem) : JSNum :=
  items.foldl
    (fun sum item =>
      if (itemTotal item).isNaN then sum else sum.add (itemTotal item))
    (JSNum.fin 0)

/-- `total`: `activePromoCode ? subtotal * (1 - discount / 100) : subtotal`. -/
def total (c : CartState) : JSNum :=
  match c.activePromoCode with
  | some promo => (subtotal c.items).mul (JSNum.fin (1 - promo.discount / 100))
  | none => subtotal c.items

/-- `totalItems`: `items.reduce((sum, item) => sum + item.quantity, 0)`. -/
def totalItems (items : List CartItem) : Int :=
  items.foldl (fun sum item => sum + item.quantity) 0

/-- One user-level operation on the running provider, tagged with the
time at which its persistence effect (if any) runs. -/
inductive CartOp where
  | add (now : Int) (item : CartItem)
  | remove (now : Int) (id : String)
  | update (now : Int) (id : String) (quantity : Int)
  | clear (now : Int)
  | applyPromo (code : String)
  | removePromo
deriving DecidableEq

/-- Interpreter for one operation. -/
def applyOp (op : CartOp) (s : SysState) : SysState :=
  match op with
  | .add now item => addItem now item s
  | .remove now id => removeItem now id s
  | .update now id q => updateQuantity now id q s
  | .clear now => clearCart now s
  | .applyPromo code => applyPromoCode code s
  | .removePromo => removePromoCode s

/-- A whole session: every state the provider can reach. -/
def applyOps (ops : List CartOp) (s : SysState) : SysState :=
  ops.foldl (fun st op => applyOp op st) s

/-! ### Shop page filter/sort (Shop.tsx, catalog from ProductCarousel) -/

/-- The `specifications` record of a catalog product. -/
structure ProductSpecifications where
  length : String
  absorption : String
  quantity : String
  material : String
  features : String
deriving DecidableEq

/-- One record of the static catalog `products` (ProductCarousel.tsx). -/
structure Product where
  id : Nat
  name : String
  description : String
  image : String
  price : ℚ
  features : List String
  specifications : ProductSpecifications
deriving DecidableEq

/-- `export const products` — the static catalog. -/
def products : List Product :=
  [ { id := 1
    , name := "Ultra-Thin 290mm"
    , description := "Perfect for light to medium flow days. Features our innovative ultra-thin design for maximum comfort."
    , image := "/lovable-uploads/0df96e81-8434-4436-b873-45aa9c6814cf.png"
    , price := 6.99
    , features :=
      [ "Ultra-thin design for maximum comfort"
      , "Suitable for light to medium flow"
      , "Breathable cotton-like cover"
      , "Up to 8 hours of protection"
      , "Dermatologically tested" ]
    , specifications :=
      { length := "290mm"
      , absorption := "Light to Medium"
      , quantity := "10 pads per pack"
      , material := "Cotton-like cover with absorbent core"
      , features := "Wings, Breathable, Hypoallergenic" } }
  , { id := 2
    , name := "Maxi Pads 350mm"
    , description := "Ideal for medium to heavy flow days. Enhanced absorption technology for complete confidence."
    , image := "/lovable-uploads/5064d341-66ba-411d-8a91-8781d383f256.png"
    , price := 7.99
    , features :=
      [ "Enhanced absorption technology"
      , "Ideal for medium to heavy flow"
      , "Extra-long for overnight protection"
      , "Soft cotton-like surface"
      , "Leak guard barriers" ]
    , specifications :=
      { length := "350mm"
      , absorption := "Medium to Heavy"
      , quantity := "8 pads per pack"
      , material := "Cotton-like cover with super absorbent core"
      , features := "Wings, Extra Coverage, Leak Guards" } }
  , { id := 3
    , name := "Overnight 425mm"
    , description := "Maximum protection for peaceful nights. Up to 600ml capacity for ultimate security."
    , image := "/lovable-uploads/42c0dc8a-d937-4255-9c12-d484082d26e6.png"
    , price := 8.99
    , features :=
      [ "Maximum overnight protection"
      , "Up to 600ml absorption capacity"
      , "Extra-wide back for sleeping"
      , "Soft and quiet material"
      , "12-hour protection" ]
    , specifications :=
      { length := "425mm"
      , absorption := "Heavy to Very Heavy"
      , quantity := "6 pads per pack"
      , material := "Premium cotton-like cover with maximum absorbent core"
      , features := "Wings, Extra Wide Back, Maximum Coverage" } } ]

/-- `export type SortOption`. -/
inductive SortOption where
  | featured | priceLow | priceHigh | newest
deriving DecidableEq

/-- `export type FilterOption`. -/
inductive FilterOption where
  | all | ultraThin | maxi | overnight
deriving DecidableEq

/-- The string value of a `FilterOption` literal. -/
def FilterOption.str : FilterOption → String
  | .all => "all"
  | .ultraThin => "ultra-thin"
  | .maxi => "maxi"
  | .overnight => "overnight"

/-- JavaScript `haystack.includes(needle)`: `needle` occurs as a
contiguous substring of `haystack` (both given as character lists). -/
def jsIncludes (haystack needle : List Char) : Bool :=
  decide (List.IsInfix needle haystack)

/-- The filter predicate of `Shop`:
`filterBy === "all" || features.some(f => f.toLowerCase().includes(filterBy))
 || specifications.features.toLowerCase().includes(filterBy)`. -/
def passesFilter (filterBy : FilterOption) (product : Product) : Bool :=
  if filterBy = .all then true
  else
    product.features.any (fun feature => jsIncludes (jsToLower feature) filterBy.str.toList)
      || jsIncludes (jsToLower product.specifications.features) filterBy.str.toList

/-- `filteredProducts`. -/
def filteredProducts (catalog : List Product) (filterBy : FilterOption) : List Product :=
  catalog.filter (passesFilter filterBy)

/-- `new Date(n).getTime()` for a numeric argument `n`: the argument is
stored as the epoch-millisecond timestamp, so the round trip is the
identity.  The catalog ids are numbers. -/
def jsDateGetTime (id : Nat) : Int := id

/-- The sort comparator of `Shop`: `a.price - b.price` for "price-low",
`b.price - a.price` for "price-high",
`new Date(b.id).getTime() - new Date(a.id).getTime()` for "newest",
`0` for "featured". -/
def sortCmp (sortBy : SortOption) (a b : Product) : ℚ :=
  match sortBy with
  | .priceLow => a.price - b.price
  | .priceHigh => b.price - a.price
  | .newest => ((jsDateGetTime b.id : ℚ) - (jsDateGetTime a.id : ℚ))
  | .featured => 0

/-- The "comes no later than" relation induced by the comparator: a
stable comparison sort places `a` before `b` whenever
`sortCmp _ a b ≤ 0` holds between adjacent elements. -/
def sortLe (sortBy : SortOption) (a b : Product) : Prop :=
  sortCmp sortBy a b ≤ 0

instance (sortBy : SortOption) : DecidableRel (sortLe sortBy) := fun a b => by
  unfold sortLe; infer_instance

/-- `sortedProducts`: `[...filteredProducts].sort(comparator)`.
`Array.prototype.sort` is a stable comparison sort (required since
ES2019); `List.insertionSort` is the stable comparison sort of the
model, so for the consistent comparators above the two agree. -/
def sortedProducts (catalog : List Product) (filterBy : FilterOption) (sortBy : SortOption) : List Product :=
  List.insertionSort (sortLe sortBy) (filteredProducts catalog filterBy)

/-! ### Specification-side formulations (for refinement-style claims) -/

/-- Right-folded sum of a list of JavaScript numbers. -/
def jsSum (l : List JSNum) : JSNum :=
  l.foldr JSNum.add (JSNum.fin 0)

/-- The specification's subtotal: the sum of `price × quantity` over
the current items, skipping items whose product is `NaN`. -/
def specSubtotal (items : List CartItem) : JSNum :=
  jsSum ((items.map itemTotal).filter (fun t => !t.isNaN))

/-- The specification's total: the subtotal when no promo code is
active, and `subtotal × (1 − discount/100)` for the active discount. -/
def specTotal (c : CartState) : JSNum :=
  match c.activePromoCode with
  | some promo => (specSubtotal c.items).mul (JSNum.fin (1 - promo.discount / 100))
  | none => specSubtotal c.items

/-- Case-insensitive substring occurrence, as the specification words
it: the needle occurs as a substring of the haystack after lowering
both sides. -/
def ciContains (haystack needle : String) : Prop :=
  List.IsInfix (jsToLower needle) (jsToLower haystack)

/-- The specification's filter predicate: the tag is the match-all
value, or it occurs case-insensitively as a substring of one of the
product's feature strings or of its specification-features string. -/
def specMatches (filterBy : FilterOption) (product : Product) : Prop :=
  filterBy = .all
    ∨ (∃ f ∈ product.features, ciContains f filterBy.str)
    ∨ ciContains product.specifications.features filterBy.str

/-! ### Concrete sample data for witnesses and counterexamples -/

/-- A system state with no items, no promo code and no storage entry. -/
def emptySys : SysState := ⟨⟨[], none⟩, none⟩

/-- A representative valid line item (the catalog's first product;
`mkRat 699 100` is the exact value of the price literal `6.99`). -/
def sampleItem : CartItem :=
  ⟨"1", "Ultra-Thin 290mm", "Ultra-thin pad", "/img1.png", 2, JSNum.fin (mkRat 699 100)⟩

/-- An item with a negative price. -/
def negPriceItem : CartItem := ⟨"neg", "Test", "", "", 1, JSNum.fin (-1)⟩

/-- An item with price `0`. -/
def zeroPriceItem : CartItem := ⟨"zero", "Test", "", "", 1, JSNum.fin 0⟩

/-- A valid-priced item with requested quantity `0`. -/
def qtyZeroItem : CartItem := ⟨"1", "Ultra-Thin 290mm", "", "", 0, JSNum.fin (mkRat 699 100)⟩

/-- A valid-priced item with requested quantity `150`. -/
def qty150Item : CartItem := ⟨"1", "Ultra-Thin 290mm", "", "", 150, JSNum.fin (mkRat 699 100)⟩

/-- The spec scenario's first call: `{id:"1", price:6.99, qty:2}`. -/
def scenarioItem2 : CartItem := ⟨"1", "Ultra-Thin 290mm", "", "", 2, JSNum.fin (mkRat 699 100)⟩

/-- The spec scenario's second call: `{id:"1", price:6.99, qty:3}`. -/
def scenarioItem3 : CartItem := ⟨"1", "Ultra-Thin 290mm", "", "", 3, JSNum.fin (mkRat 699 100)⟩

/-- A state with an item, an active promo code and a storage entry. -/
def busySys : SysState :=
  ⟨⟨[sampleItem], some ⟨"WELCOME10", 10⟩⟩, some ⟨[sampleItem], 123456⟩⟩

/-- A state whose only item has id `"2"`. -/
def otherIdSys : SysState :=
  ⟨⟨[⟨"2", "Maxi Pads 350mm", "", "", 4, JSNum.fin (mkRat 799 100)⟩], none⟩, none⟩

/-- A persisted envelope with one item and expiry timestamp 100. -/
def sampleEnv : CartEnvelope := ⟨[sampleItem], 100⟩

/-! ### Helper lemmas -/

theorem JSNum.add_fin_zero (a : JSNum) : a.add (JSNum.fin 0) = a := by
  cases a <;> simp [JSNum.add]

theorem JSNum.fin_zero_add (a : JSNum) : (JSNum.fin 0).add a = a := by
  cases a <;> simp [JSNum.add]

theorem JSNum.add_assoc (a b c : JSNum) : (a.add b).add c = a.add (b.add c) := by
  cases a <;> cases b <;> cases c <;> simp [JSNum.add] <;> ring

theorem jsSum_cons (x : JSNum) (l : List JSNum) : jsSum (x :: l) = x.add (jsSum l) := rfl

theorem foldl_jsAdd (l : List JSNum) : ∀ a : JSNum, l.foldl JSNum.add a = a.add (jsSum l) := by
  induction l with
  | nil => intro a; simpa [jsSum] using (JSNum.add_fin_zero a).symm
  | cons x xs ih =>
      intro a
      rw [List.foldl_cons, ih, jsSum_cons, JSNum.add_assoc]

theorem subtotal_foldl_aux :
    ∀ (items : List CartItem) (a : JSNum),
      items.foldl
        (fun sum item =>
          if (itemTotal item).isNaN then sum else sum.add (itemTotal item)) a
      = a.add (jsSum ((items.map itemTotal).filter (fun t => !t.isNaN))) := by
  intro items
  induction items with
  | nil => intro a; simpa [jsSum] using (JSNum.add_fin_zero a).symm
  | cons it rest ih =>
      intro a
      simp only [List.foldl_cons, List.map_cons, List.filter_cons]
      cases h : (itemTotal it).isNaN
      · rw [if_neg (by simp), Bool.not_false, if_pos rfl]
        rw [ih (a.add (itemTotal it)), jsSum_cons, JSNum.add_assoc]
      · rw [if_pos rfl, Bool.not_true, if_neg (by simp)]
        exact ih a

theorem subtotal_eq_specSubtotal (items : List CartItem) :
    subtotal items = specSubtotal items := by
  rw [subtotal, subtotal_foldl_aux, JSNum.fin_zero_add]
  rfl

theorem total_eq_specTotal (c : CartState) : total c = specTotal c := by
  cases hc : c.activePromoCode <;>
    simp [total, specTotal, hc, subtotal_eq_specSubtotal]

theorem totalItems_foldl_aux :
    ∀ (items : List CartItem) (a : Int),
      items.foldl (fun sum item => sum + item.quantity) a
        = a + (items.map (fun item => item.quantity)).sum := by
  intro items
  induction items with
  | nil => intro a; simp
  | cons it rest ih =>
      intro a
      rw [List.foldl_cons, ih, List.map_cons, List.sum_cons]
      ring

theorem addItem_fresh_append (now : Int) (it : CartItem) (s : SysState)
    (hp : priceInvalid it.price = false)
    (hfresh : ∀ x ∈ s.cart.items, x.id ≠ it.id) :
    (addItem now it s).cart.items
      = s.cart.items ++ [{ it with quantity := min 99 it.quantity }] := by
  have hfind : s.cart.items.find? (fun item => item.id == it.id) = none := by
    rw [List.find?_eq_none]
    intro x hx
    simpa using hfresh x hx
  simp [addItem, hp, hfind, persist]

/-! ### Claim theorems -/

/-- C1 (counterexample): after `clearCart` and the persistence effect
it triggers, the storage entry under the cart key is *not* deleted: it
holds a rewritten empty envelope.  Run from a concrete state holding
one item, an active promo code and a storage entry, at time 0. -/
theorem clearCart_storage_cx :
    (clearCart 0 busySys).storage ≠ none ∧
    (clearCart 0 busySys).storage = some ⟨[], cartExpiryMs⟩ := by
  constructor <;> decide

/-- C1 (amended): after `clearCart()` completes, including the
persistence effect it triggers, the item sequence is empty and no promo
code is active; the synchronous handler deletes the persisted entry,
but the triggered persistence effect rewrites it as an empty envelope
with a fresh expiry, so the key ends up holding an empty envelope
rather than being deleted. -/
theorem cart_clearCart_spec (now : Int) (s : SysState) :
    (clearCart now s).cart.items = [] ∧
    (clearCart now s).cart.activePromoCode = none ∧
    (clearCart now s).storage = some ⟨[], now + cartExpiryMs⟩ :=
  ⟨rfl, rfl, rfl⟩

/-- C2 (counterexample): `addItem` accepts an item with a negative
price (the state changes, refuting "for any item with a negative price
it is rejected") and rejects an item with price 0 (a no-op, refuting
"price equal to a finite non-negative number (including 0) is
accepted"). -/
theorem addItem_price_validation_cx :
    addItem 0 negPriceItem emptySys ≠ emptySys ∧
    addItem 0 zeroPriceItem emptySys = emptySys := by
  constructor <;> decide

/-- C2 (amended): `addItem` validates only that the price is truthy and
not `NaN`: the operation is a no-op (no state change, no persistence
write, no exception) exactly when the price is `0` or `NaN`; any other
price — including negative and infinite ones — is accepted, and a fresh
valid-priced item is appended to the sequence. -/
theorem cart_addItem_price_guard (now : Int) (it : CartItem) (s : SysState) :
    (priceInvalid it.price = true → addItem now it s = s) ∧
    (priceInvalid it.price = false ↔ it.price ≠ JSNum.fin 0 ∧ it.price ≠ JSNum.nan) ∧
    (priceInvalid it.price = false → (∀ x ∈ s.cart.items, x.id ≠ it.id) →
      (addItem now it s).cart.items
        = s.cart.items ++ [{ it with quantity := min 99 it.quantity }]) := by
  refine ⟨fun h => by simp [addItem, h], ?_,
    fun hp hf => addItem_fresh_append now it s hp hf⟩
  cases hpr : it.price <;>
    simp [priceInvalid, JSNum.falsy, JSNum.isNaN]

/-- C2 witness: a concrete negative-priced item is appended. -/
theorem cart_addItem_price_guard_witness :
    (addItem 0 negPriceItem emptySys).cart.items
      = emptySys.cart.items ++ [{ negPriceItem with quantity := min 99 negPriceItem.quantity }] :=
  (cart_addItem_price_guard 0 negPriceItem emptySys).2.2 (by decide) (by decide)

/-- C3 (counterexample): a fresh valid-priced item requested with
quantity 0 is stored with quantity 0, not raised to 1: there is no
lower clamp in `addItem`. -/
theorem addItem_no_lower_clamp_cx :
    ((addItem 0 qtyZeroItem emptySys).cart.items.map (fun item => item.quantity)) = [0] ∧
    ¬ ((addItem 0 qtyZeroItem emptySys).cart.items.map (fun item => item.quantity)) = [1] := by
  constructor <;> decide

/-- C3 (amended): for every valid-priced item whose id is not already
in the cart, `addItem` appends a new line item at the end of the
sequence with its quantity clamped only from above to 99
(`Math.min(99, ·)`): a requested quantity above 99 becomes 99, and a
requested quantity of at most 99 — including values below 1 — is stored
as requested. -/
theorem cart_addItem_append_upper_clamp (now : Int) (it : CartItem) (s : SysState)
    (hp : priceInvalid it.price = false)
    (hfresh : ∀ x ∈ s.cart.items, x.id ≠ it.id) :
    (addItem now it s).cart.items
      = s.cart.items ++ [{ it with quantity := min 99 it.quantity }] ∧
    (99 < it.quantity → min 99 it.quantity = 99) ∧
    (it.quantity ≤ 99 → min 99 it.quantity = it.quantity) := by
  refine ⟨addItem_fresh_append now it s hp hfresh, fun h => ?_, fun h => ?_⟩ <;> omega

/-- C3 witness: a concrete requested quantity of 150 is stored as 99. -/
theorem cart_addItem_append_upper_clamp_witness :
    (addItem 0 qty150Item emptySys).cart.items
      = emptySys.cart.items ++ [{ qty150Item with quantity := min 99 qty150Item.quantity }] ∧
    (99 < qty150Item.quantity → min 99 qty150Item.quantity = 99) ∧
    (qty150Item.quantity ≤ 99 → min 99 qty150Item.quantity = qty150Item.quantity) :=
  cart_addItem_append_upper_clamp 0 qty150Item emptySys (by decide) (by decide)

theorem find?_of_filter_singleton {α : Type} {p : α → Bool} :
    ∀ (l : List α) (e : α), l.filter p = [e] → l.find? p = some e := by
  intro l
  induction l with
  | nil => intro e h; simp at h
  | cons y ys ih =>
      intro e h
      cases hy : p y
      · rw [List.filter_cons_of_neg (by simp [hy])] at h
        rw [List.find?_cons_of_neg _ (by simp [hy])]
        exact ih e h
      · rw [List.filter_cons_of_pos hy] at h
        obtain ⟨rfl, -⟩ : y = e ∧ ys.filter p = [] := by simpa using h
        exact List.find?_cons_of_pos _ hy

theorem addItem_merge (now : Int) (it : CartItem) (s : SysState) (e : CartItem)
    (hp : priceInvalid it.price = false)
    (hfind : s.cart.items.find? (fun x => x.id == it.id) = some e) :
    (addItem now it s).cart.items
      = s.cart.items.map (fun x =>
          if x.id == it.id then { x with quantity := min 99 (x.quantity + it.quantity) }
          else x) := by
  simp [addItem, hp, hfind, persist]

theorem filter_id_map_merge (id : String) (q : Int) (items : List CartItem) :
    (items.map (fun x =>
        if x.id == id then { x with quantity := min 99 (x.quantity + q) } else x)).filter
      (fun x => x.id == id)
      = (items.filter (fun x => x.id == id)).map
          (fun x => { x with quantity := min 99 (x.quantity + q) }) := by
  induction items with
  | nil => simp
  | cons y ys ih =>
      cases hy : (y.id == id)
      · have hy' : ¬ y.id = id := by simpa using hy
        simp [List.filter_cons, hy'] at ih ⊢
        exact ih
      · have hy' : y.id = id := by simpa using hy
        simp [List.filter_cons, hy'] at ih ⊢
        exact ih

theorem addItem_inv_step (now : Int) (id : String) (it : CartItem) (s : SysState)
    (A : Int) (e : CartItem)
    (hid : it.id = id) (hp : priceInvalid it.price = false) (hq : 1 ≤ it.quantity)
    (hfilter : s.cart.items.filter (fun x => x.id == id) = [e])
    (hqty : e.quantity = min 99 A) :
    ((addItem now it s).cart.items.filter (fun x => x.id == id))
      = [{ e with quantity := min 99 (A + it.quantity) }] := by
  have hfind : s.cart.items.find? (fun x => x.id == it.id) = some e := by
    rw [hid]
    exact find?_of_filter_singleton _ e hfilter
  rw [addItem_merge now it s e hp hfind, hid, filter_id_map_merge id it.quantity, hfilter]
  simp only [List.map_cons, List.map_nil, List.cons.injEq, and_true]
  have : min 99 (e.quantity + it.quantity) = min 99 (A + it.quantity) := by
    rw [hqty]; omega
  rw [this]

theorem addItem_chain (now : Int) (id : String) :
    ∀ (calls : List CartItem) (s : SysState) (A : Int) (e : CartItem),
      (∀ c ∈ calls, c.id = id ∧ priceInvalid c.price = false ∧ 1 ≤ c.quantity) →
      s.cart.items.filter (fun x => x.id == id) = [e] →
      e.quantity = min 99 A →
      ∃ e', ((calls.foldl (fun st c => addItem now c st) s).cart.items.filter
              (fun x => x.id == id)) = [e']
          ∧ e'.quantity = min 99 (A + (calls.map (fun c => c.quantity)).sum) := by
  intro calls
  induction calls with
  | nil =>
      intro s A e _ hf hq
      exact ⟨e, by simpa using hf, by simpa using hq⟩
  | cons c cs ih =>
      intro s A e hall hf hq
      obtain ⟨hid, hp, hqty⟩ := hall c (by simp)
      have hstep := addItem_inv_step now id c s A e hid hp hqty hf hq
      obtain ⟨e', h1, h2⟩ :=
        ih (addItem now c s) (A + c.quantity) { e with quantity := min 99 (A + c.quantity) }
          (fun x hx => hall x (by simp [hx])) hstep (by simp)
      refine ⟨e', by simpa [List.foldl_cons] using h1, ?_⟩
      rw [h2, List.map_cons, List.sum_cons]
      have : A + c.quantity + (cs.map (fun c => c.quantity)).sum
           = A + (c.quantity + (cs.map (fun c => c.quantity)).sum) := by ring
      rw [this]

/-- C4: for every sequence of `addItem` calls sharing one id, each with
a price the code accepts and a positive requested quantity, started in
a state whose cart has no line item with that id, the cart afterwards
holds exactly one line item with that id and its quantity is
`min 99 (Σ requested quantities)`. -/
theorem cart_addItem_same_id_min_sum (now : Int) (id : String) (s : SysState)
    (calls : List CartItem) (c0 : CartItem)
    (h0 : s.cart.items.filter (fun x => x.id == id) = [])
    (hcalls : ∀ c ∈ c0 :: calls, c.id = id ∧ priceInvalid c.price = false ∧ 1 ≤ c.quantity) :
    ∃ e, (((c0 :: calls).foldl (fun st c => addItem now c st) s).cart.items.filter
            (fun x => x.id == id)) = [e]
       ∧ e.quantity = min 99 (((c0 :: calls).map (fun c => c.quantity)).sum) := by
  obtain ⟨hid0, hp0, hq0⟩ := hcalls c0 (by simp)
  have hfresh : ∀ x ∈ s.cart.items, x.id ≠ c0.id := by
    intro x hx
    have := (List.filter_eq_nil_iff.mp h0) x hx
    simpa [hid0] using this
  have happend := addItem_fresh_append now c0 s hp0 hfresh
  have hfilter1 : (addItem now c0 s).cart.items.filter (fun x => x.id == id)
      = [{ c0 with quantity := min 99 c0.quantity }] := by
    rw [happend, List.filter_append, h0]
    simp [hid0]
  obtain ⟨e, h1, h2⟩ :=
    addItem_chain now id calls (addItem now c0 s) c0.quantity
      { c0 with quantity := min 99 c0.quantity }
      (fun x hx => hcalls x (by simp [hx])) hfilter1 (by simp)
  refine ⟨e, by simpa [List.foldl_cons] using h1, ?_⟩
  rw [h2, List.map_cons, List.sum_cons]

/-- C4 witness: the spec scenario — adding `{id:"1", price:6.99, qty:2}`
then `{id:"1", price:6.99, qty:3}` yields one line item of quantity
`min 99 5 = 5`, and the subtotal is exactly 34.95 (`mkRat 3495 100`). -/
theorem cart_addItem_same_id_min_sum_witness :
    (∃ e, (([scenarioItem2, scenarioItem3].foldl (fun st c => addItem 0 c st)
              emptySys).cart.items.filter (fun x => x.id == "1")) = [e]
        ∧ e.quantity
            = min 99 (([scenarioItem2, scenarioItem3].map (fun c => c.quantity)).sum)) ∧
    ([scenarioItem2, scenarioItem3].foldl (fun st c => addItem 0 c st)
        emptySys).cart.items.map (fun x => x.quantity) = [5] ∧
    subtotal ([scenarioItem2, scenarioItem3].foldl (fun st c => addItem 0 c st)
        emptySys).cart.items = JSNum.fin (mkRat 3495 100) := by
  refine ⟨cart_addItem_same_id_min_sum 0 "1" emptySys [scenarioItem3] scenarioItem2
    (by decide) (by decide), by decide, ?_⟩
  have hitems : ([scenarioItem2, scenarioItem3].foldl (fun st c => addItem 0 c st)
      emptySys).cart.items
      = [⟨"1", "Ultra-Thin 290mm", "", "", 5, JSNum.fin (mkRat 699 100)⟩] := by decide
  rw [hitems]
  simp only [subtotal, List.foldl_cons, List.foldl_nil, itemTotal, JSNum.mul, JSNum.isNaN,
    JSNum.add, Bool.false_eq_true, if_false, JSNum.fin.injEq]
  norm_num [Rat.mkRat_eq_div]

/-- C5: in every state the provider can reach by any sequence of
operations, the derived reads are deterministic folds over the current
state: `subtotal` is the sum of `price × quantity` over the current
items skipping `NaN` products, `total` applies exactly the active
discount (`subtotal × (1 − discount/100)`) and is the subtotal when no
promo code is active, and `totalItems` is the sum of the quantities.
They are recomputed from the state on every read and cannot be stale. -/
theorem cart_derived_reads_consistent (init : SysState) (ops : List CartOp) :
    subtotal (applyOps ops init).cart.items = specSubtotal (applyOps ops init).cart.items ∧
    total (applyOps ops init).cart = specTotal (applyOps ops init).cart ∧
    totalItems (applyOps ops init).cart.items
      = ((applyOps ops init).cart.items.map (fun item => item.quantity)).sum :=
  ⟨subtotal_eq_specSubtotal _, total_eq_specTotal _, by
    rw [totalItems, totalItems_foldl_aux, zero_add]⟩

/-- C6: at store initialization a persisted envelope is restored
(items taken exactly) only when the current time is strictly before its
`expiryDate`; an expired envelope (including the boundary instant
`now = expiryDate`) and an absent or unparseable entry (modelled as
`none`) both yield an empty cart, and the load function is total, so no
error propagates to the caller. -/
theorem cart_load_expiry (now : Int) (env : CartEnvelope) :
    loadCart none now = [] ∧
    (now < env.expiryDate → loadCart (some env) now = env.items) ∧
    (env.expiryDate ≤ now → loadCart (some env) now = []) ∧
    loadCart (some env) env.expiryDate = [] := by
  refine ⟨rfl, fun h => ?_, fun h => ?_, ?_⟩
  · simp [loadCart, h]
  · simp [loadCart, not_lt.mpr h]
  · simp [loadCart]

/-- C6 witness: a concrete envelope expiring at time 100 restores its
items at time 50 and yields an empty cart at time 150. -/
theorem cart_load_expiry_witness :
    loadCart (some sampleEnv) 50 = sampleEnv.items ∧
    loadCart (some sampleEnv) 150 = [] :=
  ⟨(cart_load_expiry 50 sampleEnv).2.1 (by decide),
   (cart_load_expiry 150 sampleEnv).2.2.1 (by decide)⟩

/-- C7: `applyPromoCode` matches case-insensitively against the fixed
allow-list: `"welcome10"` and `"WELCOME10"` produce identical states,
both activating the `WELCOME10` promo with discount 10; any successful
lookup replaces the previously active code, and a failed lookup leaves
the state unchanged (the operation is total, hence always returns
normally). -/
theorem cart_applyPromoCode_case_insensitive (s : SysState) (code : String) :
    applyPromoCode "welcome10" s = applyPromoCode "WELCOME10" s ∧
    (applyPromoCode "welcome10" s).cart.activePromoCode = some ⟨"WELCOME10", 10⟩ ∧
    (∀ p, lookupPromo code = some p →
      applyPromoCode code s = { s with cart := { s.cart with activePromoCode := some p } }) ∧
    (lookupPromo code = none → applyPromoCode code s = s) := by
  have h1 : lookupPromo "welcome10" = some ⟨"WELCOME10", 10⟩ := by decide
  have h2 : lookupPromo "WELCOME10" = some ⟨"WELCOME10", 10⟩ := by decide
  refine ⟨?_, ?_, fun p hp => ?_, fun hn => ?_⟩
  · rw [applyPromoCode, applyPromoCode, h1, h2]
  · rw [applyPromoCode, h1]
  · rw [applyPromoCode, hp]
  · rw [applyPromoCode, hn]

/-- C7 witness: from a state whose active promo is `WELCOME10`,
`applyPromoCode "save20"` replaces it with `SAVE20` (discount 20), and
`applyPromoCode "BOGUS"` leaves the state unchanged. -/
theorem cart_applyPromoCode_case_insensitive_witness :
    applyPromoCode "save20" busySys
      = { busySys with cart := { busySys.cart with activePromoCode := some ⟨"SAVE20", 20⟩ } } ∧
    applyPromoCode "BOGUS" busySys = busySys :=
  ⟨(cart_applyPromoCode_case_insensitive busySys "save20").2.2.1 ⟨"SAVE20", 20⟩ (by decide),
   (cart_applyPromoCode_case_insensitive busySys "BOGUS").2.2.2 (by decide)⟩

/-- C8: `updateQuantity(id, q)` with `q` outside `[1, 99]` leaves the
state unchanged; with `q` in `[1, 99]` it sets the quantity of every
item matching the id to exactly `q` (ids are unique, so the one
matching line item) with no further clamping or rounding, and leaves
the promo code untouched. -/
theorem cart_updateQuantity_range (now : Int) (s : SysState) (id : String) (q : Int) :
    ((q < 1 ∨ 99 < q) → updateQuantity now id q s = s) ∧
    (1 ≤ q → q ≤ 99 →
      (updateQuantity now id q s).cart.items
        = s.cart.items.map (fun item =>
            if item.id == id then { item with quantity := q } else item) ∧
      (updateQuantity now id q s).cart.activePromoCode = s.cart.activePromoCode) := by
  constructor
  · intro h
    rw [updateQuantity, if_pos h]
  · intro h1 h2
    rw [updateQuantity, if_neg (by omega)]
    exact ⟨rfl, rfl⟩

/-- C8 witness: on a concrete one-item cart, quantities 0 and 100 are
rejected without any state change, and quantity 7 is set exactly. -/
theorem cart_updateQuantity_range_witness :
    updateQuantity 0 "1" 0 busySys = busySys ∧
    updateQuantity 0 "1" 100 busySys = busySys ∧
    (updateQuantity 0 "1" 7 busySys).cart.items
      = busySys.cart.items.map (fun item =>
          if item.id == "1" then { item with quantity := 7 } else item) :=
  ⟨(cart_updateQuantity_range 0 busySys "1" 0).1 (by omega),
   (cart_updateQuantity_range 0 busySys "1" 100).1 (by omega),
   ((cart_updateQuantity_range 0 busySys "1" 7).2 (by omega) (by omega)).1⟩

/-- C10: for every quantity in `[1, 99]` and every id with no matching
line item in the cart, `updateQuantity` leaves the item sequence
unchanged: it creates no new line item and modifies no existing one. -/
theorem cart_updateQuantity_missing_id (now : Int) (s : SysState) (id : String) (q : Int)
    (h1 : 1 ≤ q) (h2 : q ≤ 99) (hmiss : ∀ item ∈ s.cart.items, item.id ≠ id) :
    (updateQuantity now id q s).cart.items = s.cart.items := by
  have hmap : (updateQuantity now id q s).cart.items
      = s.cart.items.map (fun item =>
          if item.id == id then { item with quantity := q } else item) := by
    rw [updateQuantity, if_neg (by omega)]
    rfl
  rw [hmap]
  have : s.cart.items.map (fun item =>
      if item.id == id then { item with quantity := q } else item)
      = s.cart.items.map (fun item => item) :=
    List.map_congr_left (fun a ha => by simp [hmiss a ha])
  rw [this, List.map_id']

/-- C10 witness: updating id `"1"` to quantity 5 in a cart whose only
item has id `"2"` leaves the item list untouched. -/
theorem cart_updateQuantity_missing_id_witness :
    (updateQuantity 0 "1" 5 otherIdSys).cart.items = otherIdSys.cart.items :=
  cart_updateQuantity_missing_id 0 otherIdSys "1" 5 (by omega) (by omega) (by decide)

theorem filterStr_lower (fb : FilterOption) : jsToLower fb.str = fb.str.toList := by
  cases fb <;> decide

theorem passesFilter_iff_specMatches (fb : FilterOption) (p : Product) :
    passesFilter fb p = true ↔ specMatches fb p := by
  by_cases hall : fb = .all
  · simp [passesFilter, specMatches, hall]
  · have hpf : passesFilter fb p
        = ((p.features.any fun feature => jsIncludes (jsToLower feature) fb.str.toList)
            || jsIncludes (jsToLower p.specifications.features) fb.str.toList) := by
      rw [passesFilter, if_neg hall]
    rw [hpf, Bool.or_eq_true, List.any_eq_true]
    simp only [specMatches, hall, false_or]
    constructor
    · rintro (⟨f, hf, hinc⟩ | hinc)
      · exact Or.inl ⟨f, hf, by simpa [ciContains, jsIncludes, filterStr_lower] using hinc⟩
      · exact Or.inr (by simpa [ciContains, jsIncludes, filterStr_lower] using hinc)
    · rintro (⟨f, hf, hinc⟩ | hinc)
      · exact Or.inl ⟨f, hf, by simpa [ciContains, jsIncludes, filterStr_lower] using hinc⟩
      · exact Or.inr (by simpa [ciContains, jsIncludes, filterStr_lower] using hinc)

theorem sortLe_total (k : SortOption) (a b : Product) : sortLe k a b ∨ sortLe k b a := by
  cases k <;> simp only [sortLe, sortCmp, sub_nonpos] <;>
    first
    | exact le_total _ _
    | simp

theorem sortLe_trans (k : SortOption) (a b c : Product) :
    sortLe k a b → sortLe k b c → sortLe k a c := by
  cases k <;> simp only [sortLe, sortCmp, sub_nonpos] <;> intro h1 h2 <;> linarith

theorem sorted_sortedProducts (catalog : List Product) (fb : FilterOption) (k : SortOption) :
    (sortedProducts catalog fb k).Sorted (sortLe k) := by
  haveI : IsTotal Product (sortLe k) := ⟨sortLe_total k⟩
  haveI : IsTrans Product (sortLe k) := ⟨fun a b c => sortLe_trans k a b c⟩
  exact List.sorted_insertionSort (sortLe k) (filteredProducts catalog fb)

theorem insertionSort_featured (l : List Product) :
    List.insertionSort (sortLe .featured) l = l := by
  induction l with
  | nil => rfl
  | cons x xs ih =>
      simp only [List.insertionSort, ih]
      cases xs with
      | nil => rfl
      | cons y ys =>
          simp only [List.orderedInsert]
          rw [if_pos (show sortLe SortOption.featured x y by simp [sortLe, sortCmp])]

/-- C9: the shop page's catalog filter/sort is a pure function of the
catalog, the filter tag and the sort key: a product is in the filtered
sequence exactly when it is in the catalog and either the tag is the
match-all value or the tag occurs case-insensitively as a substring of
one of its feature strings or of its specification-features string;
the sorted result is ordered by price ascending for "price-low", price
descending for "price-high", identifier descending for "newest"
(`new Date(id).getTime()` is the identity on the numeric ids), is left
exactly in filtered/catalog order for "featured", and is always a
permutation of the filtered sequence. -/
theorem shop_filter_sort_spec (catalog : List Product) (fb : FilterOption) (p : Product) :
    (p ∈ filteredProducts catalog fb ↔ p ∈ catalog ∧ specMatches fb p) ∧
    (sortedProducts catalog fb .priceLow).Sorted (fun a b => a.price ≤ b.price) ∧
    (sortedProducts catalog fb .priceHigh).Sorted (fun a b => b.price ≤ a.price) ∧
    (sortedProducts catalog fb .newest).Sorted (fun a b => b.id ≤ a.id) ∧
    sortedProducts catalog fb .featured = filteredProducts catalog fb ∧
    (∀ k : SortOption, (sortedProducts catalog fb k).Perm (filteredProducts catalog fb)) := by
  refine ⟨?_, ?_, ?_, ?_, insertionSort_featured _, fun k => List.perm_insertionSort _ _⟩
  · rw [filteredProducts, List.mem_filter, passesFilter_iff_specMatches]
  · exact (sorted_sortedProducts catalog fb .priceLow).imp (fun hab => sub_nonpos.mp hab)
  · exact (sorted_sortedProducts catalog fb .priceHigh).imp (fun hab => sub_nonpos.mp hab)
  · refine (sorted_sortedProducts catalog fb .newest).imp (fun hab => ?_)
    have h := sub_nonpos.mp hab
    have h2 : jsDateGetTime _ ≤ jsDateGetTime _ := Int.cast_le.mp h
    simpa [jsDateGetTime] using h2

/-- C1 witness: the amended clear-cart behaviour at a concrete state. -/
theorem cart_clearCart_spec_witness :
    (clearCart 5 busySys).cart.items = [] ∧
    (clearCart 5 busySys).cart.activePromoCode = none ∧
    (clearCart 5 busySys).storage = some ⟨[], 5 + cartExpiryMs⟩ :=
  cart_clearCart_spec 5 busySys

/-- C5 witness: the derived-read consistency at a concrete state. -/
theorem cart_derived_reads_consistent_witness :
    subtotal (applyOps [] emptySys).cart.items
      = specSubtotal (applyOps [] emptySys).cart.items :=
  (cart_derived_reads_consistent emptySys []).1

/-- C9 witness: the "featured" key leaves the catalog in its original
order. -/
theorem shop_filter_sort_spec_witness :
    sortedProducts products FilterOption.all SortOption.featured
      = filteredProducts products FilterOption.all :=
  (shop_filter_sort_spec products FilterOption.all
    ⟨0, "", "", "", 0, [], ⟨"", "", "", "", ""⟩⟩).2.2.2.2.1
